import Mathlib

/-!
Shallow embedding of `packages/stryker/src/child-proxy/ChildProcessProxy.ts`.

The parent-side proxy is single-threaded (Node event loop): all mutation of
the pending-call table, the cached error and the disposed flag happens in
reaction to discrete events (method invocations on the proxy, incoming
messages from the child, the child's exit event, dispose calls, stdout and
stderr data).  We embed the class as a state record `ChildProcessProxy` plus
one pure transition function per event handler, and a `step`/`runFrom`
machine folding a list of events.  Sends to the child are recorded in the
`sent` list (in send order, the channel being an ordered pipe) and log
output in `log`.

JavaScript particulars kept faithfully:
  * `workerTasks.push(t) - 1` allocates the correlation id as the array
    length before the push; `delete workerTasks[i]` leaves a hole (length
    unchanged) — we model entries as `WorkerEntry` with a `deleted` flag;
  * `workerTasks[id].resolve(...)` on a missing entry (`undefined`) throws,
    so `handleMessage` returns `Option` (`none` = the handler threw);
  * `array.filter`/`forEach` skip holes;
  * `initTask.promise.then(send Call)` defers the Call send until the init
    task resolves: unsent Calls wait in `initQueue` and are flushed when
    `Initialized` is received; once `initResolved` a new Call is sent
    directly (the real `.then` on an already-resolved promise fires in a
    microtask, before any further event is processed);
  * the `killWorker` continuation attached by `dispose` via
    `.then(killWorker).catch(killWorker)` runs as a microtask right after
    the dispose task settles and before the next event, so the trace
    machine folds it into the `DisposeCompleted` handling; the chain itself
    is also embedded separately as `disposeChain` for both settlement kinds.
-/

/-- Values crossing the process boundary (arguments and results) are
treated by the proxy as serializable black boxes; `undef` stands for
JavaScript `undefined` (used by `resolve(undefined)`). -/
inductive Val where
  | undef
  | data (n : Nat)
deriving DecidableEq, Repr

/-- Modelled from the spec: the utility class `Task` (`src/utils/Task.ts`)
is not among the sources; per the glossary a completion signal is "a value
that will become available exactly once, either as a success or a failure".
A task is pending, resolved with a value, or rejected with an error
(errors are modelled by their message string, standing in for the absent
`StrykerError`/`Error` wrappers). -/
inductive TaskState where
  | pending
  | resolved (v : Val)
  | rejected (e : String)
deriving DecidableEq, Repr

/-- Modelled from the spec: resolving a completion signal; it settles at
most once, so resolving a settled task changes nothing. -/
def TaskState.resolveWith (t : TaskState) (v : Val) : TaskState :=
  match t with
  | .pending => .resolved v
  | t => t

/-- Modelled from the spec: rejecting a completion signal; it settles at
most once, so rejecting a settled task changes nothing. -/
def TaskState.rejectWith (t : TaskState) (e : String) : TaskState :=
  match t with
  | .pending => .rejected e
  | t => t

/-- Modelled from the spec: `task.isResolved` tells whether the signal has
already become available (settled). -/
def TaskState.isResolved (t : TaskState) : Bool :=
  match t with
  | .pending => false
  | _ => true

/-- One slot of the `workerTasks` array.  `deleted = true` models the hole
left by `delete this.workerTasks[i]` (the array length is unchanged). -/
structure WorkerEntry where
  task : TaskState
  deleted : Bool
deriving DecidableEq, Repr

/-- Parent → child messages (`WorkerMessage` of `messageProtocol`). -/
inductive WorkerMessage where
  | Init (loggingContext : String) (plugins : List String) (requirePath : String)
      (constructorArgs : List Val) (workingDirectory : String)
  | Call (correlationId : Nat) (methodName : String) (args : List Val)
  | Dispose
deriving DecidableEq, Repr

/-- Child → parent messages (`ParentMessage` of `messageProtocol`); the
`Unidentified` case stands for a message whose kind matches none of the
four known kinds (the `default` branch of the switch). -/
inductive ParentMessage where
  | Initialized
  | Result (correlationId : Nat) (result : Val)
  | Rejection (correlationId : Nat) (error : String)
  | DisposeCompleted
  | Unidentified (raw : String)
deriving DecidableEq, Repr

/-- State of one `ChildProcessProxy` handle.  Fields mirror the class:
`initResolved`/`initQueue` embed `initTask` together with the Call sends
queued on its promise, `disposeTask` the optional dispose task,
`currentError`, `workerTasks`, `lastMessagesQueue`, `isDisposed`, and
`exitListenerActive` whether `handleUnexpectedExit` is still subscribed to
the exit event.  Observables: `sent` (messages sent to the child, in
order), `log` (debug and error log lines), `kills` (how many times the
`kill(this.worker.pid)` force-termination effect ran, modelled from the
spec since `objectUtils.kill` is not among the sources; per the spec
duplicate termination attempts are harmless and never fail). -/
structure ChildProcessProxy where
  initResolved : Bool
  initQueue : List WorkerMessage
  disposeTask : Option TaskState
  currentError : Option String
  workerTasks : List WorkerEntry
  lastMessagesQueue : List String
  isDisposed : Bool
  exitListenerActive : Bool
  sent : List WorkerMessage
  log : List String
  kills : Nat
deriving DecidableEq, Repr

namespace ChildProcessProxy

/-- The private constructor: forks the worker, sends the `Init` message
(the first message ever sent), starts listening, binds and subscribes the
exit handler. -/
def create (requirePath : String) (loggingContext : String) (plugins : List String)
    (workingDirectory : String) (constructorParams : List Val) : ChildProcessProxy :=
  { initResolved := false
    initQueue := []
    disposeTask := none
    currentError := none
    workerTasks := []
    lastMessagesQueue := []
    isDisposed := false
    exitListenerActive := true
    sent := [WorkerMessage.Init loggingContext plugins requirePath constructorParams workingDirectory]
    log := []
    kills := 0 }

/-- Outcome of invoking a proxied method (`forward`): either the
immediately rejected promise `Promise.reject(this.currentError)`, or the
pending `workerTask.promise` identified by its correlation id. -/
inductive ForwardOutcome where
  | rejectedWith (e : String)
  | pendingCall (correlationId : Nat)
deriving DecidableEq, Repr

/-- `forward(methodName)(...args)`: with a cached error, reject at once and
touch nothing; otherwise push a fresh task (`correlationId = push - 1`,
i.e. the array length before the push) and schedule the `Call` send behind
`initTask.promise` — sent right away if init already resolved, queued
otherwise. -/
def forward (st : ChildProcessProxy) (methodName : String) (args : List Val) :
    ChildProcessProxy × ForwardOutcome :=
  match st.currentError with
  | some e => (st, .rejectedWith e)
  | none =>
    let correlationId := st.workerTasks.length
    let msg := WorkerMessage.Call correlationId methodName args
    let st := { st with workerTasks := st.workerTasks ++ [WorkerEntry.mk TaskState.pending false] }
    let st :=
      if st.initResolved then { st with sent := st.sent ++ [msg] }
      else { st with initQueue := st.initQueue ++ [msg] }
    (st, .pendingCall correlationId)

/-- The `'message'` listener.  Returns `none` when the handler throws:
`this.workerTasks[id].resolve`/`.reject` on a missing or deleted entry is
an access on `undefined`.  `Initialized` resolves the init task, flushing
the queued Call sends in registration order; `Result`/`Rejection` settle
and then delete the matching entry; `DisposeCompleted` resolves the
dispose task if one exists (else the message is ignored) — settling it
triggers the `killWorker` continuation (a microtask, folded in here: kill
by pid and mark disposed); an unidentified message is logged. -/
def handleMessage (st : ChildProcessProxy) (m : ParentMessage) : Option ChildProcessProxy :=
  match m with
  | .Initialized =>
    some { st with initResolved := true, initQueue := [], sent := st.sent ++ st.initQueue }
  | .Result correlationId result =>
    match st.workerTasks[correlationId]? with
    | some entry =>
      if entry.deleted then none
      else some { st with
        workerTasks := st.workerTasks.set correlationId ⟨entry.task.resolveWith result, true⟩ }
    | none => none
  | .Rejection correlationId error =>
    match st.workerTasks[correlationId]? with
    | some entry =>
      if entry.deleted then none
      else some { st with
        workerTasks := st.workerTasks.set correlationId ⟨entry.task.rejectWith error, true⟩ }
    | none => none
  | .DisposeCompleted =>
    match st.disposeTask with
    | some TaskState.pending =>
      some { st with
        disposeTask := some (TaskState.resolved Val.undef)
        kills := st.kills + 1
        isDisposed := true }
    | _ => some st
  | .Unidentified raw =>
    some { st with log := st.log ++ ["Received unidentified message " ++ raw] }

/-- `signal || 'without signal'` of the debug line (a missing signal is the
empty string, JavaScript-falsy). -/
def signalText (signal : String) : String :=
  if signal = "" then "without signal" else signal

/-- `messages.map(msg => "\t" + msg).join(os.EOL)` (`os.EOL` is the
newline on the platforms the tool targets here). -/
def joinTabbed : List String → String
  | [] => ""
  | [m] => "\t" ++ m
  | m :: rest => "\t" ++ m ++ "\n" ++ joinTabbed rest

/-- The local helper `stdoutAndStderr` of `handleUnexpectedExit`. -/
def stdoutAndStderr (messages : List String) : String :=
  match messages with
  | [] => "Stdout and stderr were empty."
  | _ => "Last part of stdout and stderr was: \n" ++ joinTabbed messages

/-- The message of the cached fatal error
`new StrykerError("Child process exited unexpectedly (code " + code + ")")`
— it names only the exit code. -/
def crashError (code : Int) : String :=
  "Child process exited unexpectedly (code " ++ toString code ++ ")"

/-- The `log.debug` line of `handleUnexpectedExit`: names the exit code,
the signal (or a no-signal note) and the tail of stdout/stderr. -/
def debugExitMessage (code : Int) (signal : String) (messages : List String) : String :=
  "Child process exited unexpectedly with exit code " ++ toString code ++ " ("
    ++ signalText signal ++ "). " ++ stdoutAndStderr messages

/-- `handleUnexpectedExit(code, signal)`: log the diagnostic line, cache
the fatal error, reject every non-hole entry whose task has not resolved
(`filter(task => !task.isResolved).forEach(task => task.reject(...))` —
holes are skipped, and a settled task's signal is already unchangeable),
and mark the handle disposed. -/
def handleUnexpectedExit (st : ChildProcessProxy) (code : Int) (signal : String) :
    ChildProcessProxy :=
  { st with
    log := st.log ++ [debugExitMessage code signal st.lastMessagesQueue]
    currentError := some (crashError code)
    workerTasks := st.workerTasks.map fun entry =>
      if entry.deleted then entry
      else { entry with task := entry.task.rejectWith (crashError code) }
    isDisposed := true }

/-- Outcome of a `dispose()` call: the already-resolved
`Promise.resolve()` of a handle already disposed, or the pending
`disposeTask.promise.then(killWorker).catch(killWorker)` chain. -/
inductive DisposeOutcome where
  | alreadyResolved
  | pendingDisposal
deriving DecidableEq, Repr

/-- `dispose()`: first unsubscribe the exit handler; if already disposed
(by a crash or a completed prior disposal) return a resolved promise at
once; otherwise create a fresh dispose task (overwriting any previous
one), send the `Dispose` message and return the pending chain. -/
def dispose (st : ChildProcessProxy) : ChildProcessProxy × DisposeOutcome :=
  let st := { st with exitListenerActive := false }
  if st.isDisposed then (st, .alreadyResolved)
  else
    ({ st with
        disposeTask := some TaskState.pending
        sent := st.sent ++ [WorkerMessage.Dispose] }, .pendingDisposal)

/-- The `killWorker` closure of `dispose`: `kill(this.worker.pid)` (force
termination by process id, modelled from the spec as an always-harmless
effect) followed by `this.isDisposed = true`. -/
def killWorker (st : ChildProcessProxy) : ChildProcessProxy :=
  { st with kills := st.kills + 1, isDisposed := true }

/-- A settlement of the dispose task: how
`disposeTask.promise` came to rest. -/
inductive Settlement where
  | resolvedWith (v : Val)
  | rejectedWith (e : String)
deriving DecidableEq, Repr

/-- The promise chain `disposeTask.promise.then(killWorker).catch(killWorker)`
returned by `dispose()`, as a function of how the dispose task settles: on
resolution the `then` callback runs `killWorker`; on rejection the
rejection skips to the `catch`, which runs `killWorker`; either way the
chain's own promise resolves (with the `undefined` that `killWorker`
returns). -/
def disposeChain (st : ChildProcessProxy) (s : Settlement) :
    ChildProcessProxy × Settlement :=
  match s with
  | .resolvedWith _ => (killWorker st, .resolvedWith Val.undef)
  | .rejectedWith _ => (killWorker st, .resolvedWith Val.undef)

/-- The stdout/stderr `handleData` listener: append the chunk to
`lastMessagesQueue` and shift the oldest entry out once the queue exceeds
ten entries. -/
def pushMessage (q : List String) (msg : String) : List String :=
  let q := q ++ [msg]
  if q.length > 10 then q.drop 1 else q

/-- `handleData` applied to the handle. -/
def handleData (st : ChildProcessProxy) (msg : String) : ChildProcessProxy :=
  { st with lastMessagesQueue := pushMessage st.lastMessagesQueue msg }

/-- One event the parent-side event loop can react to. -/
inductive Event where
  | invoke (methodName : String) (args : List Val)
  | recv (m : ParentMessage)
  | exitEvt (code : Int) (signal : String)
  | disposeCall
  | outData (line : String)
deriving DecidableEq, Repr

/-- One event-loop reaction.  `none` means the message handler threw.  The
exit event reaches `handleUnexpectedExit` only while the listener is still
subscribed (dispose removes it). -/
def step (st : ChildProcessProxy) (e : Event) : Option ChildProcessProxy :=
  match e with
  | .invoke methodName args => some (st.forward methodName args).1
  | .recv m => st.handleMessage m
  | .exitEvt code signal =>
    if st.exitListenerActive then some (st.handleUnexpectedExit code signal) else some st
  | .disposeCall => some (st.dispose).1
  | .outData line => some (st.handleData line)

/-- Fold a list of events through `step`; `none` once any handler throws. -/
def runFrom (st : ChildProcessProxy) : List Event → Option ChildProcessProxy
  | [] => some st
  | e :: rest =>
    match step st e with
    | some st' => runFrom st' rest
    | none => none

end ChildProcessProxy

open ChildProcessProxy

/-- Is a sent message a `Call`? -/
def WorkerMessage.isCallMsg : WorkerMessage → Bool
  | .Call _ _ _ => true
  | _ => false

/-- Is a sent message the `Init` message? -/
def WorkerMessage.isInitMsg : WorkerMessage → Bool
  | .Init _ _ _ _ _ => true
  | _ => false

/-- Is a sent message the `Dispose` message? -/
def WorkerMessage.isDisposeMsg : WorkerMessage → Bool
  | .Dispose => true
  | _ => false

/-- How many `Dispose` messages a send log holds. -/
def countDispose (ms : List WorkerMessage) : Nat :=
  (ms.filter WorkerMessage.isDisposeMsg).length

/-- How many `Init` messages a send log holds. -/
def countInit (ms : List WorkerMessage) : Nat :=
  (ms.filter WorkerMessage.isInitMsg).length

/-- How many `disposeCall` events an event list holds. -/
def countDisposeCalls (evs : List Event) : Nat :=
  (evs.filter fun e => match e with | Event.disposeCall => true | _ => false).length

/-- A concrete freshly constructed handle, used to instantiate theorems. -/
def proxy0 : ChildProcessProxy :=
  ChildProcessProxy.create "requirePath" "loggingContext" [] "workingDirectory" []

/-- `proxy0` after an unexpected child exit with code 1 and no signal. -/
def crashedProxy : ChildProcessProxy := proxy0.handleUnexpectedExit 1 ""

/-- C2: invoking a method while a fatal error is cached returns the
immediately rejected promise carrying that same cached error and leaves the
state untouched — no pending-call record is created and nothing is sent. -/
theorem crashed_proxy_rejects_immediately (st : ChildProcessProxy) (methodName : String)
    (args : List Val) (e : String) (h : st.currentError = some e) :
    st.forward methodName args = (st, ForwardOutcome.rejectedWith e)
    ∧ (st.forward methodName args).1.sent = st.sent
    ∧ (st.forward methodName args).1.workerTasks = st.workerTasks := by
  simp [ChildProcessProxy.forward, h]

/-- Witness for C2: the crashed sample proxy rejects a call with the cached
crash error. -/
theorem crashed_proxy_rejects_immediately_witness :
    crashedProxy.forward "doWork" [] = (crashedProxy, ForwardOutcome.rejectedWith (crashError 1)) :=
  (crashed_proxy_rejects_immediately crashedProxy "doWork" [] (crashError 1) rfl).1

/-- C10: a `DisposeCompleted` message arriving while no disposal is in
progress (no dispose task exists) is silently ignored: the state is
unchanged and the handler does not throw. -/
theorem dispose_completed_without_disposal_ignored (st : ChildProcessProxy)
    (h : st.disposeTask = none) :
    st.handleMessage ParentMessage.DisposeCompleted = some st := by
  simp [ChildProcessProxy.handleMessage, h]

/-- Witness for C10: the fresh sample proxy ignores `DisposeCompleted`. -/
theorem dispose_completed_without_disposal_ignored_witness :
    proxy0.handleMessage ParentMessage.DisposeCompleted = some proxy0 :=
  dispose_completed_without_disposal_ignored proxy0 rfl

/-- C5: whichever way the dispose task settles, the
`then(killWorker).catch(killWorker)` chain force-terminates the child by
pid, marks the handle disposed, and its own promise resolves (never
rejects); and `dispose()` on an already-disposed handle returns an
already-resolved promise. -/
theorem dispose_chain_never_rejects (st : ChildProcessProxy) (s : Settlement) :
    st.disposeChain s = (st.killWorker, Settlement.resolvedWith Val.undef)
    ∧ (st.disposeChain s).1.isDisposed = true
    ∧ (st.disposeChain s).1.kills = st.kills + 1
    ∧ (ChildProcessProxy.dispose { st with isDisposed := true }).2
        = DisposeOutcome.alreadyResolved := by
  refine ⟨?_, ?_, ?_, ?_⟩ <;> cases s <;> rfl

/-- Counterexample for C4: a `Result` whose correlation id matches no
pending record (fresh proxy, empty table) makes the message handler throw
(`this.workerTasks[0]` is `undefined`), rather than being ignored. -/
theorem unmatched_correlation_id_throws :
    proxy0.handleMessage (ParentMessage.Result 0 Val.undef) = none := rfl

/-- C4 (amended): a `Result` or `Rejection` whose correlation id matches no
pending call record — the id is out of range or its entry was deleted —
causes the message handler to throw (accessing the absent record fails). -/
theorem unmatched_result_rejection_throws (st : ChildProcessProxy) (id : Nat) (v : Val)
    (err : String)
    (h : st.workerTasks[id]? = none
      ∨ ∃ entry, st.workerTasks[id]? = some entry ∧ entry.deleted = true) :
    st.handleMessage (ParentMessage.Result id v) = none
    ∧ st.handleMessage (ParentMessage.Rejection id err) = none := by
  rcases h with h | ⟨entry, h, hd⟩ <;>
    exact ⟨by simp [ChildProcessProxy.handleMessage, h, *],
      by simp [ChildProcessProxy.handleMessage, h, *]⟩

/-- Witness for C4 (amended): a `Rejection` for id 0 on the fresh proxy
throws. -/
theorem unmatched_result_rejection_throws_witness :
    proxy0.handleMessage (ParentMessage.Rejection 0 "boom") = none :=
  (unmatched_result_rejection_throws proxy0 0 Val.undef "boom" (Or.inl rfl)).2

/-- Counterexample for C6: calling `dispose()` a second time before the
first disposal completed does not return an already-completed signal — it
returns a second pending chain and a second `Dispose` message is sent. -/
theorem double_dispose_sends_two_dispose_messages :
    ((proxy0.dispose).1.dispose).2 = DisposeOutcome.pendingDisposal
    ∧ countDispose ((proxy0.dispose).1.dispose).1.sent = 2 := by
  exact ⟨rfl, rfl⟩

/-- C6 (amended): once the handle is marked disposed — by a completed
disposal or by a crash — `dispose()` returns an already-completed signal
immediately, sends nothing further, and does not terminate again (the
unexpected-exit handler marks the handle disposed). -/
theorem dispose_after_disposed_is_noop (st : ChildProcessProxy) (code : Int) (signal : String) :
    ChildProcessProxy.dispose { st with isDisposed := true }
      = ({ st with isDisposed := true, exitListenerActive := false },
          DisposeOutcome.alreadyResolved)
    ∧ (st.handleUnexpectedExit code signal).isDisposed = true
    ∧ ((st.handleUnexpectedExit code signal).dispose).2 = DisposeOutcome.alreadyResolved
    ∧ ((st.handleUnexpectedExit code signal).dispose).1.sent = st.sent
    ∧ ((st.handleUnexpectedExit code signal).dispose).1.kills = st.kills := by
  refine ⟨rfl, rfl, ?_, ?_, ?_⟩ <;> rfl

/-- Counterexample for C3: the exit handler is subscribed with `on`, not
`once`, so a second firing of the termination event runs the crash handling
again — it appends a second log line and replaces the cached error with a
new one built from the second exit code. -/
theorem crash_handler_reruns_on_second_exit_event :
    ((proxy0.handleUnexpectedExit 1 "").handleUnexpectedExit 2 "SIGTERM").currentError
      = some (crashError 2)
    ∧ crashError 2 ≠ crashError 1
    ∧ ((proxy0.handleUnexpectedExit 1 "").handleUnexpectedExit 2 "SIGTERM").log.length = 2 := by
  refine ⟨rfl, by decide, rfl⟩

/-- Rejecting an already-folded crash entry again changes nothing: after
one pass of the crash handler every surviving entry is either a hole or a
settled task, and a settled completion signal cannot settle again. -/
theorem crash_entry_idem (code code2 : Int) (e : WorkerEntry) :
    (fun entry => if entry.deleted then entry
        else { entry with task := entry.task.rejectWith (crashError code2) })
      ((fun entry => if entry.deleted then entry
        else { entry with task := entry.task.rejectWith (crashError code) }) e)
    = (fun entry => if entry.deleted then entry
        else { entry with task := entry.task.rejectWith (crashError code) }) e := by
  obtain ⟨t, d⟩ := e
  cases d <;> cases t <;> simp [TaskState.rejectWith]

/-- C3 (amended): on unexpected child termination every not-yet-settled
pending call record is rejected with the fatal error, already-settled or
deleted records are untouched (each call settles exactly once), the error
is cached and the handle marked disposed, and this works with zero pending
calls; the handler stays subscribed via `on`, so a second firing of the
termination event runs it again — but its effect on the pending-call table,
send log and termination count is nil: the rerun only appends a log line
and rebuilds the cached error from the new exit code. -/
theorem crash_rejects_pending_once (st : ChildProcessProxy) (code code2 : Int)
    (signal signal2 : String) :
    (st.handleUnexpectedExit code signal).currentError = some (crashError code)
    ∧ (st.handleUnexpectedExit code signal).isDisposed = true
    ∧ (∀ (i : Nat) (entry : WorkerEntry), st.workerTasks[i]? = some entry → entry.deleted = false →
        entry.task = TaskState.pending →
        (st.handleUnexpectedExit code signal).workerTasks[i]?
          = some (WorkerEntry.mk (TaskState.rejected (crashError code)) false))
    ∧ (∀ (i : Nat) (entry : WorkerEntry), st.workerTasks[i]? = some entry → entry.task.isResolved = true →
        (st.handleUnexpectedExit code signal).workerTasks[i]? = some entry)
    ∧ (∀ (i : Nat) (entry : WorkerEntry), st.workerTasks[i]? = some entry → entry.deleted = true →
        (st.handleUnexpectedExit code signal).workerTasks[i]? = some entry)
    ∧ (st.workerTasks = [] → (st.handleUnexpectedExit code signal).workerTasks = [])
    ∧ ((st.handleUnexpectedExit code signal).handleUnexpectedExit code2 signal2).workerTasks
        = (st.handleUnexpectedExit code signal).workerTasks
    ∧ ((st.handleUnexpectedExit code signal).handleUnexpectedExit code2 signal2).sent
        = (st.handleUnexpectedExit code signal).sent
    ∧ ((st.handleUnexpectedExit code signal).handleUnexpectedExit code2 signal2).kills
        = (st.handleUnexpectedExit code signal).kills
    ∧ ((st.handleUnexpectedExit code signal).handleUnexpectedExit code2 signal2).isDisposed
        = true := by
  refine ⟨rfl, rfl, ?_, ?_, ?_, ?_, ?_, rfl, rfl, rfl⟩
  · intro i entry h hd ht
    obtain ⟨t, d⟩ := entry
    simp only at hd ht
    subst hd; subst ht
    simp [ChildProcessProxy.handleUnexpectedExit, List.getElem?_map, h, TaskState.rejectWith]
  · intro i entry h hres
    obtain ⟨t, d⟩ := entry
    simp only [TaskState.isResolved] at hres
    simp [ChildProcessProxy.handleUnexpectedExit, List.getElem?_map, h]
    cases d <;> cases t <;> simp_all [TaskState.rejectWith]
  · intro i entry h hd
    obtain ⟨t, d⟩ := entry
    simp only at hd
    subst hd
    simp [ChildProcessProxy.handleUnexpectedExit, List.getElem?_map, h]
  · intro h
    simp [ChildProcessProxy.handleUnexpectedExit, h]
  · simp only [ChildProcessProxy.handleUnexpectedExit, List.map_map]
    exact List.map_congr_left fun a _ => crash_entry_idem code code2 a

/-- Witness for C3 (amended): on a proxy with one pending call, a crash
with exit code 1 rejects record 0 with the cached crash error. -/
theorem crash_rejects_pending_once_witness :
    ((proxy0.forward "foo" []).1.handleUnexpectedExit 1 "").workerTasks[0]?
      = some (WorkerEntry.mk (TaskState.rejected (crashError 1)) false) :=
  (crash_rejects_pending_once (proxy0.forward "foo" []).1 1 2 "" "SIGTERM").2.2.1 0
    (WorkerEntry.mk TaskState.pending false) rfl rfl rfl

/-- `forward` never changes whether the init task has resolved. -/
theorem forward_initResolved (st : ChildProcessProxy) (n : String) (a : List Val) :
    (st.forward n a).1.initResolved = st.initResolved := by
  unfold ChildProcessProxy.forward
  cases st.currentError
  · simp only
    split <;> rfl
  · rfl

/-- Before the init task has resolved, `forward` sends nothing: the Call
waits in the queue behind `initTask.promise`. -/
theorem forward_sent_of_not_init (st : ChildProcessProxy) (n : String) (a : List Val)
    (hi : st.initResolved = false) : (st.forward n a).1.sent = st.sent := by
  unfold ChildProcessProxy.forward
  cases st.currentError
  · simp [hi]
  · rfl

/-- Once the init task has resolved, `forward` on a healthy proxy appends
exactly the one `Call` message. -/
theorem forward_sent_of_init (st : ChildProcessProxy) (n : String) (a : List Val)
    (hc : st.currentError = none) (hi : st.initResolved = true) :
    (st.forward n a).1.sent
      = st.sent ++ [WorkerMessage.Call st.workerTasks.length n a] := by
  simp [ChildProcessProxy.forward, hc, hi]


/-- `forward` only ever adds `Call` messages to the init queue. -/
theorem forward_queue (st : ChildProcessProxy) (n : String) (a : List Val)
    (hq : ∀ m ∈ st.initQueue, m.isCallMsg = true) :
    ∀ m ∈ (st.forward n a).1.initQueue, m.isCallMsg = true := by
  unfold ChildProcessProxy.forward
  cases st.currentError
  · simp only
    split
    · simpa using hq
    · intro m hm
      rcases List.mem_append.mp hm with h | h
      · exact hq m h
      · simp at h
        subst h
        rfl
  · exact hq


/-- One event-loop step extends the send log by a (possibly empty) batch
`extra` of messages: the batch never holds an `Init`, holds at most one
`Dispose` (and only for a `disposeCall` event), keeps the init queue all
`Call`s, and — whenever the init task is still unresolved afterwards — it
was unresolved before and the batch holds no `Call` either. -/
theorem step_sent_ext (st st' : ChildProcessProxy) (e : Event)
    (h : step st e = some st')
    (hq : ∀ m ∈ st.initQueue, m.isCallMsg = true) :
    ∃ extra, st'.sent = st.sent ++ extra
      ∧ (∀ m ∈ st'.initQueue, m.isCallMsg = true)
      ∧ (∀ m ∈ extra, m.isInitMsg = false)
      ∧ countDispose extra ≤ countDisposeCalls [e]
      ∧ (st'.initResolved = false →
          st.initResolved = false ∧ ∀ m ∈ extra, m.isCallMsg = false) := by
  cases e with
  | invoke n a =>
    simp only [step, Option.some.injEq] at h
    subst h
    cases hc : st.currentError with
    | some err =>
      have hst : (st.forward n a).1 = st := by simp [ChildProcessProxy.forward, hc]
      rw [hst]
      exact ⟨[], (by rw [List.append_nil]; try rfl), hq, by simp, by simp [countDispose], fun hf => ⟨hf, by simp⟩⟩
    | none =>
      by_cases hi : st.initResolved = true
      · refine ⟨[WorkerMessage.Call st.workerTasks.length n a],
          forward_sent_of_init st n a hc hi, forward_queue st n a hq, ?_, ?_, ?_⟩
        · intro m hm
          simp at hm
          subst hm
          rfl
        · simp [countDispose, countDisposeCalls, WorkerMessage.isDisposeMsg]
        · intro hfalse
          rw [forward_initResolved st n a, hi] at hfalse
          cases hfalse
      · simp only [Bool.not_eq_true] at hi
        refine ⟨[], ?_, forward_queue st n a hq, by simp, by simp [countDispose], fun _ => ⟨hi, by simp⟩⟩
        rw [forward_sent_of_not_init st n a hi, List.append_nil]
  | recv msg =>
    cases msg with
    | Initialized =>
      simp only [step, ChildProcessProxy.handleMessage, Option.some.injEq] at h
      subst h
      refine ⟨st.initQueue, rfl, by simp, ?_, ?_, ?_⟩
      · intro m hm
        have := hq m hm
        cases m <;> simp_all [WorkerMessage.isCallMsg, WorkerMessage.isInitMsg]
      · have hzero : countDispose st.initQueue = 0 := by
          simp only [countDispose]
          rw [List.length_eq_zero, List.filter_eq_nil_iff]
          intro m hm
          have := hq m hm
          cases m <;> simp_all [WorkerMessage.isCallMsg, WorkerMessage.isDisposeMsg]
        simp [hzero]
      · intro hfalse
        cases hfalse
    | Result id v =>
      simp only [step, ChildProcessProxy.handleMessage] at h
      split at h
      · split at h
        · cases h
        · obtain rfl := Option.some.inj h
          exact ⟨[], (by rw [List.append_nil]; try rfl), hq, by simp, by simp [countDispose], fun hf => ⟨hf, by simp⟩⟩
      · cases h
    | Rejection id err =>
      simp only [step, ChildProcessProxy.handleMessage] at h
      split at h
      · split at h
        · cases h
        · obtain rfl := Option.some.inj h
          exact ⟨[], (by rw [List.append_nil]; try rfl), hq, by simp, by simp [countDispose], fun hf => ⟨hf, by simp⟩⟩
      · cases h
    | DisposeCompleted =>
      simp only [step, ChildProcessProxy.handleMessage] at h
      split at h
      · obtain rfl := Option.some.inj h
        exact ⟨[], (by rw [List.append_nil]; try rfl), hq, by simp, by simp [countDispose], fun hf => ⟨hf, by simp⟩⟩
      · obtain rfl := Option.some.inj h
        exact ⟨[], (by rw [List.append_nil]; try rfl), hq, by simp, by simp [countDispose], fun hf => ⟨hf, by simp⟩⟩
    | Unidentified raw =>
      simp only [step, ChildProcessProxy.handleMessage, Option.some.injEq] at h
      subst h
      exact ⟨[], (by rw [List.append_nil]; try rfl), hq, by simp, by simp [countDispose], fun hf => ⟨hf, by simp⟩⟩
  | exitEvt code signal =>
    simp only [step] at h
    split at h <;> obtain rfl := Option.some.inj h
    · exact ⟨[], (by rw [List.append_nil]; try rfl), hq, by simp, by simp [countDispose], fun hf => ⟨hf, by simp⟩⟩
    · exact ⟨[], (by rw [List.append_nil]; try rfl), hq, by simp, by simp [countDispose], fun hf => ⟨hf, by simp⟩⟩
  | disposeCall =>
    simp only [step, Option.some.injEq] at h
    subst h
    by_cases hd : st.isDisposed = true
    · have hst : (st.dispose).1 = { st with exitListenerActive := false } := by
        simp [ChildProcessProxy.dispose, hd]
      rw [hst]
      exact ⟨[], (by rw [List.append_nil]; try rfl), hq, by simp, by simp [countDispose], fun hf => ⟨hf, by simp⟩⟩
    · simp only [Bool.not_eq_true] at hd
      have hst : (st.dispose).1 = { st with exitListenerActive := false, disposeTask := some TaskState.pending, sent := st.sent ++ [WorkerMessage.Dispose] } := by
        simp [ChildProcessProxy.dispose, hd]
      rw [hst]
      refine ⟨[WorkerMessage.Dispose], rfl, hq, ?_, ?_, fun hf => ⟨hf, ?_⟩⟩
      · intro m hm
        simp at hm
        subst hm
        rfl
      · simp [countDispose, countDisposeCalls, WorkerMessage.isDisposeMsg]
      · intro m hm
        simp at hm
        subst hm
        rfl
  | outData line =>
    simp only [step, Option.some.injEq] at h
    subst h
    exact ⟨[], (by rw [List.append_nil]; try rfl), hq, by simp, by simp [countDispose], fun hf => ⟨hf, by simp⟩⟩

/-- Counting `disposeCall` events distributes over cons. -/
theorem countDisposeCalls_cons (e : Event) (evs : List Event) :
    countDisposeCalls (e :: evs) = countDisposeCalls [e] + countDisposeCalls evs := by
  cases e <;> (simp [countDisposeCalls, List.filter]; try omega)

/-- `step_sent_ext` lifted to whole event traces. -/
theorem runFrom_sent_ext : ∀ (evs : List Event) (st st' : ChildProcessProxy),
    runFrom st evs = some st' →
    (∀ m ∈ st.initQueue, m.isCallMsg = true) →
    ∃ extra, st'.sent = st.sent ++ extra
      ∧ (∀ m ∈ st'.initQueue, m.isCallMsg = true)
      ∧ (∀ m ∈ extra, m.isInitMsg = false)
      ∧ countDispose extra ≤ countDisposeCalls evs
      ∧ (st'.initResolved = false →
          st.initResolved = false ∧ ∀ m ∈ extra, m.isCallMsg = false)
  | [], st, st', h, hq => by
    simp only [runFrom, Option.some.injEq] at h
    subst h
    exact ⟨[], (by rw [List.append_nil]; try rfl), hq, by simp,
      by simp [countDispose], fun hf => ⟨hf, by simp⟩⟩
  | e :: rest, st, st', h, hq => by
    simp only [runFrom] at h
    cases hstep : step st e with
    | none =>
      rw [hstep] at h
      cases h
    | some st1 =>
      rw [hstep] at h
      obtain ⟨e1, hs1, hq1, hni1, hd1, hinit1⟩ := step_sent_ext st st1 e hstep hq
      obtain ⟨e2, hs2, hq2, hni2, hd2, hinit2⟩ := runFrom_sent_ext rest st1 st' h hq1
      refine ⟨e1 ++ e2, ?_, hq2, ?_, ?_, ?_⟩
      · rw [hs2, hs1, List.append_assoc]
      · intro m hm
        rcases List.mem_append.mp hm with h1 | h2
        · exact hni1 m h1
        · exact hni2 m h2
      · have hsum : countDispose (e1 ++ e2) = countDispose e1 + countDispose e2 := by
          simp [countDispose]
        rw [hsum, countDisposeCalls_cons]
        omega
      · intro hf
        obtain ⟨hf1, hc2⟩ := hinit2 hf
        obtain ⟨hf0, hc1⟩ := hinit1 hf1
        refine ⟨hf0, fun m hm => ?_⟩
        rcases List.mem_append.mp hm with h1 | h2
        · exact hc1 m h1
        · exact hc2 m h2

/-- C1: over any event trace, as long as the `Initialized` message has not
resolved the init task, no `Call` message has been sent to the child —
calls made before `Initialized` only queue behind the init signal. -/
theorem calls_queue_until_initialized (requirePath loggingContext : String)
    (plugins : List String) (workingDirectory : String) (params : List Val)
    (evs : List Event) (st : ChildProcessProxy)
    (hrun : runFrom
      (ChildProcessProxy.create requirePath loggingContext plugins workingDirectory params)
      evs = some st)
    (hinit : st.initResolved = false) :
    ∀ m ∈ st.sent, m.isCallMsg = false := by
  obtain ⟨extra, hsent, -, -, -, himp⟩ :=
    runFrom_sent_ext evs _ st hrun (by simp [ChildProcessProxy.create])
  obtain ⟨-, hex⟩ := himp hinit
  intro m hm
  rw [hsent] at hm
  rcases List.mem_append.mp hm with h1 | h2
  · simp [ChildProcessProxy.create] at h1
    subst h1
    rfl
  · exact hex m h2

/-- Witness for C1: after one queued invocation on a fresh proxy (no
`Initialized` yet), the lone sent message — the `Init` — is not a Call. -/
theorem calls_queue_until_initialized_witness :
    (WorkerMessage.Init "loggingContext" [] "requirePath" [] "workingDirectory").isCallMsg
      = false :=
  calls_queue_until_initialized "requirePath" "loggingContext" [] "workingDirectory" []
    [Event.invoke "foo" []] _ rfl rfl
    (WorkerMessage.Init "loggingContext" [] "requirePath" [] "workingDirectory") (by decide)

/-- Counterexample for C8: the trace `dispose(); dispose()` (second call
before the first disposal completed) sends two `Dispose` messages, so "at
most one Dispose message is ever sent per handle" fails. -/
theorem two_dispose_calls_two_dispose_messages_trace :
    (runFrom proxy0 [Event.disposeCall, Event.disposeCall]).map
      (fun st => countDispose st.sent) = some 2 := by
  decide

/-- C8 (amended): over any event trace, exactly one `Init` message is sent
and it is the first message (hence before every `Call`); each `Dispose`
message stems from one `disposeCall` event — so a single `dispose()` call
sends at most one `Dispose`, but repeated `dispose()` calls before the
first disposal completes can each send one. -/
theorem one_init_first_dispose_bounded (requirePath loggingContext : String)
    (plugins : List String) (workingDirectory : String) (params : List Val)
    (evs : List Event) (st : ChildProcessProxy)
    (hrun : runFrom
      (ChildProcessProxy.create requirePath loggingContext plugins workingDirectory params)
      evs = some st) :
    countInit st.sent = 1
    ∧ st.sent.head?
        = some (WorkerMessage.Init loggingContext plugins requirePath params workingDirectory)
    ∧ (∀ (i c : Nat) (mn : String) (a : List Val),
        st.sent[i]? = some (WorkerMessage.Call c mn a) → 0 < i)
    ∧ countDispose st.sent ≤ countDisposeCalls evs := by
  obtain ⟨extra, hsent, -, hni, hd, -⟩ :=
    runFrom_sent_ext evs _ st hrun (by simp [ChildProcessProxy.create])
  have hsent' : st.sent
      = WorkerMessage.Init loggingContext plugins requirePath params workingDirectory
        :: extra := by
    rw [hsent]
    rfl
  have hfilter : extra.filter WorkerMessage.isInitMsg = [] :=
    List.filter_eq_nil_iff.mpr (by intro a ha; simp [hni a ha])
  refine ⟨?_, ?_, ?_, ?_⟩
  · rw [hsent']
    simp [countInit, List.filter_cons, WorkerMessage.isInitMsg, hfilter]
  · rw [hsent']
    rfl
  · intro i c mn a hi
    rw [hsent'] at hi
    cases i with
    | zero =>
      rw [List.getElem?_cons_zero] at hi
      exact absurd hi (by simp)
    | succ n => exact Nat.succ_pos n
  · rw [hsent']
    have hcons : countDispose
        (WorkerMessage.Init loggingContext plugins requirePath params workingDirectory
          :: extra) = countDispose extra := by
      simp [countDispose, List.filter_cons, WorkerMessage.isDisposeMsg]
    rw [hcons]
    exact hd

/-- Witness for C8 (amended): the trace with one `dispose()` call on a
fresh proxy sends exactly one `Init`. -/
theorem one_init_first_dispose_bounded_witness :
    countInit ((ChildProcessProxy.create "requirePath" "loggingContext" [] "workingDirectory"
      []).dispose).1.sent = 1 :=
  (one_init_first_dispose_bounded "requirePath" "loggingContext" [] "workingDirectory" []
    [Event.disposeCall] _ rfl).1

/-- No event-loop reaction ever shrinks the pending-call table: JavaScript
`delete` leaves a hole instead of shifting, so the array length — the next
correlation id — never decreases. -/
theorem step_tasks_len (st st' : ChildProcessProxy) (e : Event) (h : step st e = some st') :
    st.workerTasks.length ≤ st'.workerTasks.length := by
  cases e with
  | invoke n a =>
    simp only [step, Option.some.injEq] at h
    subst h
    cases hc : st.currentError with
    | some err => simp [ChildProcessProxy.forward, hc]
    | none =>
      by_cases hi : st.initResolved = true
      · simp [ChildProcessProxy.forward, hc, hi]
      · simp only [Bool.not_eq_true] at hi
        simp [ChildProcessProxy.forward, hc, hi]
  | recv msg =>
    cases msg with
    | Initialized =>
      simp only [step, ChildProcessProxy.handleMessage, Option.some.injEq] at h
      subst h
      exact Nat.le_refl _
    | Result id v =>
      simp only [step, ChildProcessProxy.handleMessage] at h
      split at h
      · split at h
        · cases h
        · obtain rfl := Option.some.inj h
          simp
      · cases h
    | Rejection id err =>
      simp only [step, ChildProcessProxy.handleMessage] at h
      split at h
      · split at h
        · cases h
        · obtain rfl := Option.some.inj h
          simp
      · cases h
    | DisposeCompleted =>
      simp only [step, ChildProcessProxy.handleMessage] at h
      split at h <;> (obtain rfl := Option.some.inj h; exact Nat.le_refl _)
    | Unidentified raw =>
      simp only [step, ChildProcessProxy.handleMessage, Option.some.injEq] at h
      subst h
      exact Nat.le_refl _
  | exitEvt code signal =>
    simp only [step] at h
    split at h <;> obtain rfl := Option.some.inj h
    · simp [ChildProcessProxy.handleUnexpectedExit]
    · exact Nat.le_refl _
  | disposeCall =>
    simp only [step, Option.some.injEq] at h
    subst h
    by_cases hd : st.isDisposed = true <;> simp [ChildProcessProxy.dispose, hd]
  | outData line =>
    simp only [step, Option.some.injEq] at h
    subst h
    exact Nat.le_refl _

/-- Table-length monotonicity over whole traces. -/
theorem runFrom_tasks_len : ∀ (evs : List Event) (st st' : ChildProcessProxy),
    runFrom st evs = some st' → st.workerTasks.length ≤ st'.workerTasks.length
  | [], st, st', h => by
    simp only [runFrom, Option.some.injEq] at h
    subst h
    exact Nat.le_refl _
  | e :: rest, st, st', h => by
    simp only [runFrom] at h
    cases hstep : step st e with
    | none =>
      rw [hstep] at h
      cases h
    | some st1 =>
      rw [hstep] at h
      exact Nat.le_trans (step_tasks_len st st1 e hstep)
        (runFrom_tasks_len rest st1 st' h)

/-- On a healthy proxy, `forward` hands out the current table length as the
correlation id (`push(...) - 1`) and grows the table by one. -/
theorem forward_allocates (st : ChildProcessProxy) (n : String) (a : List Val)
    (hc : st.currentError = none) :
    (st.forward n a).2 = ForwardOutcome.pendingCall st.workerTasks.length
    ∧ (st.forward n a).1.workerTasks.length = st.workerTasks.length + 1 := by
  constructor
  · simp [ChildProcessProxy.forward, hc]
  · simp only [ChildProcessProxy.forward, hc]
    split <;> simp

/-- C9: correlation ids increase strictly across the lifetime of a handle —
an invocation now and any later invocation (with any events in between)
get ids `len` and `len' > len`, so an id is never reused while its call is
pending; and routing a `Result` or `Rejection` to its record deletes the
record from the table. -/
theorem correlation_ids_increase_and_records_removed
    (st : ChildProcessProxy) (evs : List Event) (st' : ChildProcessProxy)
    (n1 n2 : String) (a1 a2 : List Val)
    (h0 : st.currentError = none)
    (hrun : runFrom (st.forward n1 a1).1 evs = some st')
    (h1 : st'.currentError = none) :
    (st.forward n1 a1).2 = ForwardOutcome.pendingCall st.workerTasks.length
    ∧ (st'.forward n2 a2).2 = ForwardOutcome.pendingCall st'.workerTasks.length
    ∧ st.workerTasks.length < st'.workerTasks.length
    ∧ (∀ (s s2 : ChildProcessProxy) (id : Nat) (v : Val) (entry : WorkerEntry),
        s.workerTasks[id]? = some entry → entry.deleted = false →
        s.handleMessage (ParentMessage.Result id v) = some s2 →
        s2.workerTasks[id]? = some (WorkerEntry.mk (entry.task.resolveWith v) true))
    ∧ (∀ (s s2 : ChildProcessProxy) (id : Nat) (err : String) (entry : WorkerEntry),
        s.workerTasks[id]? = some entry → entry.deleted = false →
        s.handleMessage (ParentMessage.Rejection id err) = some s2 →
        s2.workerTasks[id]? = some (WorkerEntry.mk (entry.task.rejectWith err) true)) := by
  refine ⟨(forward_allocates st n1 a1 h0).1, (forward_allocates st' n2 a2 h1).1, ?_, ?_, ?_⟩
  · have hmono := runFrom_tasks_len evs _ st' hrun
    have hgrow := (forward_allocates st n1 a1 h0).2
    omega
  · intro s s2 id v entry hget hdel hmsg
    simp [ChildProcessProxy.handleMessage, hget, hdel] at hmsg
    subst hmsg
    have hlt : id < s.workerTasks.length := by
      rcases List.getElem?_eq_some_iff.mp hget with ⟨hl, -⟩
      exact hl
    simp [List.getElem?_set_self hlt]
  · intro s s2 id err entry hget hdel hmsg
    simp [ChildProcessProxy.handleMessage, hget, hdel] at hmsg
    subst hmsg
    have hlt : id < s.workerTasks.length := by
      rcases List.getElem?_eq_some_iff.mp hget with ⟨hl, -⟩
      exact hl
    simp [List.getElem?_set_self hlt]

/-- Witness for C9: a first invocation on the fresh proxy makes the table
strictly longer, so the next id is strictly larger. -/
theorem correlation_ids_increase_and_records_removed_witness :
    proxy0.workerTasks.length < ((proxy0.forward "a" []).1).workerTasks.length :=
  (correlation_ids_increase_and_records_removed proxy0 [] (proxy0.forward "a" []).1
    "a" "b" [] [] rfl rfl rfl).2.2.1

/-- Every captured line occurs inside the tabbed, newline-joined rendering
used by the crash diagnostic. -/
theorem mem_infix_joinTabbed : ∀ (ms : List String), ∀ m ∈ ms,
    List.IsInfix m.data (joinTabbed ms).data := by
  intro ms
  induction ms with
  | nil =>
    intro m hm
    cases hm
  | cons a rest ih =>
    intro m hm
    cases rest with
    | nil =>
      have hma : m = a := by simpa using hm
      subst hma
      exact ⟨"\t".data, [], by simp [joinTabbed]⟩
    | cons b rest2 =>
      rcases List.mem_cons.mp hm with hma | hm2
      · subst hma
        exact ⟨"\t".data, ("\n" ++ joinTabbed (b :: rest2)).data, by simp [joinTabbed]⟩
      · have hdec : (joinTabbed (a :: b :: rest2)).data
            = ("\t" ++ a ++ "\n").data ++ (joinTabbed (b :: rest2)).data := by
          simp [joinTabbed]
        have hsuf : List.IsInfix (joinTabbed (b :: rest2)).data
            (joinTabbed (a :: b :: rest2)).data := by
          rw [hdec]
          exact (List.suffix_append _ _).isInfix
        exact List.IsInfix.trans (ih m hm2) hsuf

/-- The crash diagnostic line decomposes into its four textual parts. -/
theorem debugExitMessage_decomp (code : Int) (signal : String) (ms : List String) :
    (debugExitMessage code signal ms).data
      = ("Child process exited unexpectedly with exit code " ++ toString code ++ " (").data
        ++ (signalText signal).data ++ ("). ").data ++ (stdoutAndStderr ms).data := by
  simp [debugExitMessage]

/-- With captured output, the diagnostic tail is the banner plus the joined
lines. -/
theorem stdoutAndStderr_cons (a : String) (t : List String) :
    (stdoutAndStderr (a :: t)).data
      = ("Last part of stdout and stderr was: \n").data ++ (joinTabbed (a :: t)).data := by
  simp [stdoutAndStderr]

/-- A proxy that captured one stdout line and then saw the child exit with
code 1 under signal SIGKILL. -/
def crashedWithOutput : ChildProcessProxy :=
  (proxy0.handleData "oops").handleUnexpectedExit 1 "SIGKILL"

/-- Counterexample for C7: the error cached for (and used to reject)
pending calls names only the exit code — it mentions neither the signal
nor any captured output line; those go to the debug log instead. -/
theorem cached_error_omits_signal_and_output :
    crashedWithOutput.currentError = some "Child process exited unexpectedly (code 1)"
    ∧ ¬ List.IsInfix "SIGKILL".data "Child process exited unexpectedly (code 1)".data
    ∧ ¬ List.IsInfix "oops".data "Child process exited unexpectedly (code 1)".data := by
  refine ⟨by decide, by decide, by decide⟩

/-- C7 (amended): on unexpected termination the cached rejection error
names only the exit code; the full diagnostic — exit code, signal (or a
no-signal note), and the captured output tail (each buffered line, or the
empty-note when nothing was captured) — is written to the debug log, and
the diagnostic buffer never holds more than the last 10 lines. -/
theorem crash_error_names_code_log_names_rest (st : ChildProcessProxy) (code : Int)
    (signal : String) :
    (st.handleUnexpectedExit code signal).currentError = some (crashError code)
    ∧ List.IsInfix (toString code).data (crashError code).data
    ∧ (st.handleUnexpectedExit code signal).log
        = st.log ++ [debugExitMessage code signal st.lastMessagesQueue]
    ∧ List.IsInfix (signalText signal).data
        (debugExitMessage code signal st.lastMessagesQueue).data
    ∧ (st.lastMessagesQueue = [] →
        List.IsInfix ("Stdout and stderr were empty.").data
          (debugExitMessage code signal st.lastMessagesQueue).data)
    ∧ (∀ line ∈ st.lastMessagesQueue,
        List.IsInfix line.data (debugExitMessage code signal st.lastMessagesQueue).data)
    ∧ (∀ (q : List String) (line : String),
        q.length ≤ 10 → (pushMessage q line).length ≤ 10) := by
  refine ⟨rfl, ?_, rfl, ?_, ?_, ?_, ?_⟩
  · exact ⟨("Child process exited unexpectedly (code ").data, (")").data,
      by simp [crashError]⟩
  · rw [debugExitMessage_decomp]
    refine ⟨("Child process exited unexpectedly with exit code " ++ toString code
      ++ " (").data,
      ("). ").data ++ (stdoutAndStderr st.lastMessagesQueue).data, ?_⟩
    simp [List.append_assoc]
  · intro hq
    rw [debugExitMessage_decomp, hq]
    have hnote : (stdoutAndStderr ([] : List String)).data
        = ("Stdout and stderr were empty.").data := rfl
    rw [hnote]
    exact (List.suffix_append _ _).isInfix
  · intro line hl
    cases hqq : st.lastMessagesQueue with
    | nil =>
      rw [hqq] at hl
      cases hl
    | cons a t =>
      rw [hqq] at hl
      have h1 : List.IsInfix line.data (joinTabbed (a :: t)).data :=
        mem_infix_joinTabbed (a :: t) line hl
      have h2 : List.IsInfix (joinTabbed (a :: t)).data
          (debugExitMessage code signal (a :: t)).data := by
        rw [debugExitMessage_decomp, stdoutAndStderr_cons]
        exact List.IsInfix.trans (List.suffix_append _ _).isInfix
          (List.suffix_append _ _).isInfix
      exact List.IsInfix.trans h1 h2
  · intro q line hlen
    have hpush : pushMessage q line
        = if (q ++ [line]).length > 10 then (q ++ [line]).drop 1 else q ++ [line] := rfl
    rw [hpush]
    split
    · rename_i hgt
      simp only [List.length_drop, List.length_append, List.length_cons,
        List.length_nil] at *
      omega
    · rename_i hle
      simp only [List.length_append, List.length_cons, List.length_nil] at *
      omega

/-- Witness for C7 (amended): the captured line "oops" occurs in the debug
diagnostic composed after the crash of the sample proxy. -/
theorem crash_error_names_code_log_names_rest_witness :
    List.IsInfix "oops".data
      (debugExitMessage 1 "SIGKILL" ((proxy0.handleData "oops").lastMessagesQueue)).data :=
  (crash_error_names_code_log_names_rest (proxy0.handleData "oops") 1 "SIGKILL").2.2.2.2.2.1
    "oops" (by decide)
